import Mathlib

/-!
Shallow embedding of the benchmarking script src/src/benchmark_plot.py.

The script runs two iperf3 measurement sessions (MACsec-encrypted and plain),
parses the JSON telemetry of each client run, and plots a comparison.

Modelling choices:
- JSON documents decoded by json.loads are modelled by the inductive Json;
  a parse input is Option Json, where none stands for a json.JSONDecodeError
  (malformed or absent structured content) and some j for a decoded document.
- Python floats are modelled as rationals; 1e9 is 1000000000, 0.8 is 4/5,
  0.01 is 1/100, 1.2 is 6/5.
- Python runtime errors (NameError, AttributeError, TypeError, ...) are
  modelled with Except: an uncaught error aborts the computation.
- The entry routine main is modelled as a trace of observable events
  (prints, process spawns, sleeps, parse calls, terminations, plotting),
  with every variable reference resolved against the environment built by
  the assignments that actually occur in main.
-/

namespace BenchmarkPlot

/-- Python runtime error kinds raised by the modelled code paths. -/
inductive PyErr where
  | nameError
  | attributeError
  | typeError
  | keyError
  | valueError
  deriving DecidableEq, Repr

/-- JSON values as decoded by Python json.loads. Objects are association
lists with the unique keys json.loads produces; numbers are rationals. -/
inductive Json where
  | null : Json
  | bool (b : Bool) : Json
  | num (q : ℚ) : Json
  | str (s : String) : Json
  | arr (xs : List Json) : Json
  | obj (kvs : List (String × Json)) : Json

/-- Association-list lookup modelling Python dict key access. -/
def jlookup : List (String × Json) → String → Option Json
  | [], _ => none
  | (k, v) :: rest, key => if k == key then some v else jlookup rest key

/-- Python d.get(key, default). Only dict objects have a .get attribute;
any other value raises AttributeError. -/
def pyGet (j : Json) (key : String) (dflt : Json) : Except PyErr Json :=
  match j with
  | .obj kvs => .ok ((jlookup kvs key).getD dflt)
  | _ => .error .attributeError

/-- Python iteration (as used by enumerate): lists yield their elements,
strings their characters, dicts their keys; other values raise TypeError. -/
def pyIter (j : Json) : Except PyErr (List Json) :=
  match j with
  | .arr xs => .ok xs
  | .str s => .ok (s.toList.map (fun c => Json.str (String.singleton c)))
  | .obj kvs => .ok (kvs.map (fun kv => Json.str kv.1))
  | _ => .error .typeError

/-- Whether the character list n occurs at the start of h. -/
def listStartsWith : List Char → List Char → Bool
  | [], _ => true
  | _ :: _, [] => false
  | a :: as, b :: bs => a == b && listStartsWith as bs

/-- Whether the character list n occurs contiguously anywhere in h. -/
def listOccurs (n : List Char) : List Char → Bool
  | [] => listStartsWith n []
  | b :: bs => listStartsWith n (b :: bs) || listOccurs n bs

/-- The Python membership test key in j: key lookup for dicts, element
equality for lists, substring for strings; TypeError otherwise. -/
def pyContains (j : Json) (key : String) : Except PyErr Bool :=
  match j with
  | .obj kvs => .ok ((jlookup kvs key).isSome)
  | .arr xs => .ok (xs.any (fun e => match e with | .str s => s == key | _ => false))
  | .str s => .ok (listOccurs key.toList s.toList)
  | _ => .error .typeError

/-- Python subscript j[key] with a string key: dict lookup (KeyError when
absent); lists and strings want integer indices, so TypeError. -/
def pySubscript (j : Json) (key : String) : Except PyErr Json :=
  match j with
  | .obj kvs =>
    match jlookup kvs key with
    | some v => .ok v
    | none => .error .keyError
  | _ => .error .typeError

/-- Python v / 1e9 for a value v taken out of the decoded JSON: numbers
divide, bools coerce to 0 or 1, anything else raises TypeError. -/
def pyDiv1e9 (j : Json) : Except PyErr ℚ :=
  match j with
  | .num q => .ok (q / 1000000000)
  | .bool b => .ok ((if b then (1 : ℚ) else 0) / 1000000000)
  | _ => .error .typeError

/-- The interval loop of parse_iperf_output: for idx, interval in
enumerate(intervals), take interval.get("sum", {}), and when
"bits_per_second" is in it append bits_per_second/1e9 to bandwidths and
idx+1 to timestamps. -/
def parseLoop : List Json → Nat → List Nat → List ℚ → Except PyErr (List Nat × List ℚ)
  | [], _, ts, bs => .ok (ts, bs)
  | iv :: rest, idx, ts, bs =>
    match pyGet iv "sum" (Json.obj []) with
    | .error e => .error e
    | .ok sumData =>
      match pyContains sumData "bits_per_second" with
      | .error e => .error e
      | .ok false => parseLoop rest (idx + 1) ts bs
      | .ok true =>
        match pySubscript sumData "bits_per_second" with
        | .error e => .error e
        | .ok v =>
          match pyDiv1e9 v with
          | .error e => .error e
          | .ok q => parseLoop rest (idx + 1) (ts ++ [idx + 1]) (bs ++ [q])

/-- parse_iperf_output: none models a json.JSONDecodeError (the except
branch prints a diagnostic and returns two empty lists); some data models a
decoded document, processed by data.get("intervals", []) and the interval
loop. The result is (timestamps, bandwidths, diagnosticPrinted); an
Except.error is a Python exception escaping the function. -/
def parse_iperf_output (input : Option Json) : Except PyErr (List Nat × List ℚ × Bool) :=
  match input with
  | none => .ok ([], [], true)
  | some data =>
    match pyGet data "intervals" (Json.arr []) with
    | .error e => .error e
    | .ok ivsJson =>
      match pyIter ivsJson with
      | .error e => .error e
      | .ok ivs =>
        match parseLoop ivs 0 [] [] with
        | .error e => .error e
        | .ok (ts, bs) => .ok (ts, bs, false)

/-- An interval record of the shape iperf3 emits: a JSON object whose sum
field, when present, is an object holding at most a numeric bits_per_second
value. -/
def GoodInterval (j : Json) : Prop :=
  ∃ kvs, j = Json.obj kvs ∧
    (jlookup kvs "sum" = none ∨
      ∃ skvs, jlookup kvs "sum" = some (Json.obj skvs) ∧
        (jlookup skvs "bits_per_second" = none ∨
          ∃ q, jlookup skvs "bits_per_second" = some (Json.num q)))

/-- Whether an interval record carries the throughput field, i.e. whether
the parser emits a sample for it. -/
def hasBps (j : Json) : Bool :=
  match j with
  | .obj kvs =>
    match jlookup kvs "sum" with
    | some (.obj skvs) => (jlookup skvs "bits_per_second").isSome
    | _ => false
  | _ => false

/-- The raw bits_per_second value of an interval record (0 when absent). -/
def bpsValue (j : Json) : ℚ :=
  match j with
  | .obj kvs =>
    match jlookup kvs "sum" with
    | some (.obj skvs) =>
      match jlookup skvs "bits_per_second" with
      | some (.num q) => q
      | _ => 0
    | _ => 0
  | _ => 0

/-- The timestamp indices the loop emits for the records of ivs when the
enumeration counter starts at k: one plus the original record position for
every record that carries the field. -/
def emittedIndices : List Json → Nat → List Nat
  | [], _ => []
  | iv :: rest, k =>
    if hasBps iv then (k + 1) :: emittedIndices rest (k + 1) else emittedIndices rest (k + 1)

/-- The bandwidth values the loop emits for the records of ivs, in document
order: bits_per_second divided by 1e9 for every record carrying the field. -/
def emittedValues : List Json → List ℚ
  | [] => []
  | iv :: rest =>
    if hasBps iv then (bpsValue iv / 1000000000) :: emittedValues rest else emittedValues rest

/-- The original 1-based positions of the records that carry the field. -/
def carryPositions (ivs : List Json) : List Nat :=
  (List.range ivs.length).filterMap
    (fun i => if hasBps (ivs.getD i Json.null) then some (i + 1) else none)

/-- One step of the interval loop for a wellformed record: it emits the
sample exactly when the record carries the field, advancing the counter
either way. -/
theorem parseLoop_cons_of_good (iv : Json) (rest : List Json) (k : Nat) (ts : List Nat)
    (bs : List ℚ) (h : GoodInterval iv) :
    parseLoop (iv :: rest) k ts bs =
      if hasBps iv then
        parseLoop rest (k + 1) (ts ++ [k + 1]) (bs ++ [bpsValue iv / 1000000000])
      else parseLoop rest (k + 1) ts bs := by
  rcases h with ⟨kvs, rfl, hsum | ⟨skvs, hsum, hbp | ⟨q, hbp⟩⟩⟩
  · simp [parseLoop, pyGet, hsum, pyContains, jlookup, hasBps]
  · simp [parseLoop, pyGet, hsum, pyContains, hbp, hasBps]
  · simp [parseLoop, pyGet, hsum, pyContains, hbp, pySubscript, pyDiv1e9, hasBps, bpsValue]

/-- The interval loop over wellformed records appends exactly the emitted
indices and values to its accumulators and never raises. -/
theorem parseLoop_good (ivs : List Json) :
    ∀ (k : Nat) (ts : List Nat) (bs : List ℚ), (∀ j ∈ ivs, GoodInterval j) →
      parseLoop ivs k ts bs = .ok (ts ++ emittedIndices ivs k, bs ++ emittedValues ivs) := by
  induction ivs with
  | nil => intro k ts bs _; simp [parseLoop, emittedIndices, emittedValues]
  | cons iv rest ih =>
    intro k ts bs h
    rw [parseLoop_cons_of_good iv rest k ts bs (h iv (List.mem_cons_self iv rest))]
    have hrest : ∀ j ∈ rest, GoodInterval j := fun j hj => h j (List.mem_cons_of_mem iv hj)
    by_cases hb : hasBps iv = true
    · simp [hb, ih (k + 1) _ _ hrest, emittedIndices, emittedValues]
    · simp [hb, ih (k + 1) _ _ hrest, emittedIndices, emittedValues]

/-- parse_iperf_output on a decoded object document with a wellformed
intervals list returns exactly the emitted indices and values. -/
theorem parse_good (kvs : List (String × Json)) (ivs : List Json)
    (hint : jlookup kvs "intervals" = some (Json.arr ivs))
    (hgood : ∀ j ∈ ivs, GoodInterval j) :
    parse_iperf_output (some (Json.obj kvs)) =
      .ok (emittedIndices ivs 0, emittedValues ivs, false) := by
  simp [parse_iperf_output, pyGet, hint, pyIter, parseLoop_good ivs 0 [] [] hgood]

/-- The emitted index list has one entry per record carrying the field. -/
theorem emittedIndices_length (ivs : List Json) :
    ∀ k, (emittedIndices ivs k).length = ivs.countP hasBps := by
  induction ivs with
  | nil => intro k; simp [emittedIndices]
  | cons iv rest ih =>
    intro k
    by_cases hb : hasBps iv = true <;>
      simp [emittedIndices, hb, ih, List.countP_cons]

/-- The emitted value list has one entry per record carrying the field. -/
theorem emittedValues_length (ivs : List Json) :
    (emittedValues ivs).length = ivs.countP hasBps := by
  induction ivs with
  | nil => simp [emittedValues]
  | cons iv rest ih =>
    by_cases hb : hasBps iv = true <;>
      simp [emittedValues, hb, ih, List.countP_cons]

/-- Every emitted index exceeds the starting counter. -/
theorem emittedIndices_lt (ivs : List Json) :
    ∀ k i, i ∈ emittedIndices ivs k → k < i := by
  induction ivs with
  | nil => intro k i h; simp [emittedIndices] at h
  | cons iv rest ih =>
    intro k i h
    by_cases hb : hasBps iv = true
    · simp [emittedIndices, hb] at h
      rcases h with rfl | h
      · omega
      · have := ih (k + 1) i h; omega
    · simp [emittedIndices, hb] at h
      have := ih (k + 1) i h; omega

/-- The emitted indices are strictly increasing. -/
theorem emittedIndices_sorted (ivs : List Json) :
    ∀ k, List.Pairwise (· < ·) (emittedIndices ivs k) := by
  induction ivs with
  | nil => intro k; simp [emittedIndices]
  | cons iv rest ih =>
    intro k
    by_cases hb : hasBps iv = true
    · simp only [emittedIndices, hb, if_pos]
      exact List.pairwise_cons.mpr
        ⟨fun i hi => emittedIndices_lt rest (k + 1) i hi, ih (k + 1)⟩
    · simpa [emittedIndices, hb] using ih (k + 1)

/-- Each emitted index is one plus the original position of its record. -/
theorem emittedIndices_eq_positions (ivs : List Json) :
    ∀ k, emittedIndices ivs k =
      (List.range ivs.length).filterMap
        (fun i => if hasBps (ivs.getD i Json.null) then some (k + i + 1) else none) := by
  induction ivs with
  | nil => intro k; simp [emittedIndices]
  | cons iv rest ih =>
    intro k
    have hfun : ((fun i => if hasBps ((iv :: rest).getD i Json.null) = true then
          some (k + i + 1) else none) ∘ Nat.succ)
        = (fun i => if hasBps (rest.getD i Json.null) = true then
          some ((k + 1) + i + 1) else none) := by
      funext i
      rw [Function.comp_apply, List.getD_cons_succ]
      by_cases h : hasBps (rest.getD i Json.null) = true
      · rw [if_pos h, if_pos h]
        exact congrArg some (by omega)
      · rw [if_neg h, if_neg h]
    rw [List.length_cons, List.range_succ_eq_map]
    by_cases hb : hasBps iv = true
    · rw [List.filterMap_cons_some (by rw [List.getD_cons_zero, if_pos hb])]
      rw [List.filterMap_map, hfun]
      rw [emittedIndices, if_pos hb, ih (k + 1)]
    · rw [List.filterMap_cons_none (by rw [List.getD_cons_zero, if_neg hb])]
      rw [List.filterMap_map, hfun]
      rw [emittedIndices, if_neg hb, ih (k + 1)]

/-- When every record carries the field the emitted indices are dense. -/
theorem emittedIndices_all (ivs : List Json) :
    ∀ k, (∀ j ∈ ivs, hasBps j = true) →
      emittedIndices ivs k = (List.range ivs.length).map (fun i => k + i + 1) := by
  induction ivs with
  | nil => intro k _; simp [emittedIndices]
  | cons iv rest ih =>
    intro k h
    rw [List.length_cons, List.range_succ_eq_map, List.map_cons, List.map_map]
    rw [emittedIndices, if_pos (h iv (List.mem_cons_self iv rest))]
    rw [ih (k + 1) (fun j hj => h j (List.mem_cons_of_mem iv hj))]
    have hfun : ((fun i => k + i + 1) ∘ Nat.succ) = fun i => k + 1 + i + 1 := by
      funext i
      rw [Function.comp_apply]
      omega
    rw [hfun]

/-- When every record carries the field the emitted values are the
per-record bits_per_second values divided by 1e9, in document order. -/
theorem emittedValues_all (ivs : List Json) (h : ∀ j ∈ ivs, hasBps j = true) :
    emittedValues ivs = ivs.map (fun j => bpsValue j / 1000000000) := by
  induction ivs with
  | nil => simp [emittedValues]
  | cons iv rest ih =>
    simp only [emittedValues, h iv (List.mem_cons_self iv rest), if_pos, List.map_cons]
    rw [ih (fun j hj => h j (List.mem_cons_of_mem iv hj))]

/-- The interval loop preserves equality of the accumulator lengths: every
iteration appends to both lists or to neither. -/
theorem parseLoop_length (ivs : List Json) :
    ∀ (k : Nat) (ts : List Nat) (bs : List ℚ) (ts2 : List Nat) (bs2 : List ℚ),
      parseLoop ivs k ts bs = .ok (ts2, bs2) → ts.length = bs.length →
        ts2.length = bs2.length := by
  induction ivs with
  | nil =>
    intro k ts bs ts2 bs2 h hl
    simp only [parseLoop, Except.ok.injEq, Prod.mk.injEq] at h
    obtain ⟨h1, h2⟩ := h
    subst h1; subst h2; exact hl
  | cons iv rest ih =>
    intro k ts bs ts2 bs2 h hl
    rw [parseLoop] at h
    split at h
    · simp at h
    · split at h
      · simp at h
      · exact ih _ _ _ _ _ h hl
      · split at h
        · simp at h
        · split at h
          · simp at h
          · exact ih _ _ _ _ _ h (by simp [hl])

/-- The records carrying the field and those lacking it partition the
interval list. -/
theorem countP_hasBps (ivs : List Json) :
    ivs.countP hasBps + ivs.countP (fun j => !(hasBps j)) = ivs.length := by
  induction ivs with
  | nil => simp
  | cons iv rest ih =>
    by_cases h : hasBps iv = true <;> simp [List.countP_cons, h] <;> omega

/-- C1 is falsified by the code: in a two-record document whose first record
lacks the throughput field, the single emitted sample has index 2 — one plus
its original record position — not the dense index 1 the claim requires. -/
theorem c1_counterexample :
    parse_iperf_output (some (Json.obj [("intervals", Json.arr
        [Json.obj [("sum", Json.obj [])],
         Json.obj [("sum", Json.obj [("bits_per_second", Json.num 5000000000)])]])]))
      = .ok ([2], [5], false) ∧ ([2] : List Nat) ≠ [1] := by
  constructor
  · simp [parse_iperf_output, parseLoop, pyGet, pyContains, pySubscript, pyDiv1e9,
      pyIter, jlookup]
    norm_num
  · decide

/-- C1 (amended): for a decoded document where M of N interval records lack
the throughput field, parse yields exactly N − M samples; each sample's
index is one plus its record's original position in the document — records
lacking the field do consume an index slot — and indices are strictly
increasing, though not necessarily dense. -/
theorem c1_sample_count_and_indices (kvs : List (String × Json)) (ivs : List Json)
    (hint : jlookup kvs "intervals" = some (Json.arr ivs))
    (hgood : ∀ j ∈ ivs, GoodInterval j) :
    ∃ ts bs diag, parse_iperf_output (some (Json.obj kvs)) = .ok (ts, bs, diag) ∧
      ts.length = ivs.length - ivs.countP (fun j => !(hasBps j)) ∧
      bs.length = ts.length ∧
      ts = carryPositions ivs ∧
      List.Pairwise (· < ·) ts := by
  refine ⟨emittedIndices ivs 0, emittedValues ivs, false,
    parse_good kvs ivs hint hgood, ?_, ?_, ?_, emittedIndices_sorted ivs 0⟩
  · rw [emittedIndices_length]
    have := countP_hasBps ivs
    omega
  · rw [emittedValues_length, emittedIndices_length]
  · rw [emittedIndices_eq_positions ivs 0]
    unfold carryPositions
    have hfun : (fun i => if hasBps (ivs.getD i Json.null) = true then
          some (0 + i + 1) else none)
        = fun i => if hasBps (ivs.getD i Json.null) = true then some (i + 1) else none := by
      funext i
      by_cases h : hasBps (ivs.getD i Json.null) = true
      · rw [if_pos h, if_pos h]
        exact congrArg some (by omega)
      · rw [if_neg h, if_neg h]
    rw [hfun]

/-- Witness for the amended C1 at the two-record document whose first record
lacks the throughput field. -/
theorem c1_sample_count_and_indices_witness :
    ∃ ts bs diag, parse_iperf_output (some (Json.obj [("intervals", Json.arr
        [Json.obj [("sum", Json.obj [])],
         Json.obj [("sum", Json.obj [("bits_per_second", Json.num 5000000000)])]])]))
      = .ok (ts, bs, diag) ∧
      ts.length = ([Json.obj [("sum", Json.obj [])],
         Json.obj [("sum", Json.obj [("bits_per_second", Json.num 5000000000)])]].length
        - [Json.obj [("sum", Json.obj [])],
           Json.obj [("sum", Json.obj [("bits_per_second", Json.num 5000000000)])]].countP
            (fun j => !(hasBps j))) ∧
      bs.length = ts.length ∧
      ts = carryPositions [Json.obj [("sum", Json.obj [])],
        Json.obj [("sum", Json.obj [("bits_per_second", Json.num 5000000000)])]] ∧
      List.Pairwise (· < ·) ts := by
  refine c1_sample_count_and_indices _ _ rfl ?_
  intro j hj
  rcases List.mem_cons.mp hj with rfl | hj
  · exact ⟨_, rfl, Or.inr ⟨[], rfl, Or.inl rfl⟩⟩
  rcases List.mem_cons.mp hj with rfl | hj
  · exact ⟨_, rfl, Or.inr ⟨_, rfl, Or.inr ⟨5000000000, rfl⟩⟩⟩
  · cases hj

/-- C2 is falsified by the code: the input that decodes to a top-level JSON
array reaches data.get, which only dict objects support, so an
AttributeError escapes parse_iperf_output instead of two empty sequences
being returned — only JSON decode errors are caught. -/
theorem c2_counterexample :
    parse_iperf_output (some (Json.arr [])) = .error .attributeError := rfl

/-- C2 (amended): on decode failure — malformed or absent structured
content — parse returns two empty sequences and reports a diagnostic, and no
exception escapes on that path; for decodable documents whose top level is
not an object, however, an exception can escape the parser. -/
theorem c2_decode_failure_recovers :
    parse_iperf_output none = .ok ([], [], true) := rfl

/-- C7: for a decoded document all of whose N interval records carry the
throughput field, parse yields exactly N samples with indices 1..N, in
document order, each value equal to that record's raw bits_per_second
divided by 1e9 (exact in the rational model of Python floats). -/
theorem c7_dense_when_all_carry (kvs : List (String × Json)) (ivs : List Json)
    (hint : jlookup kvs "intervals" = some (Json.arr ivs))
    (hgood : ∀ j ∈ ivs, GoodInterval j)
    (hall : ∀ j ∈ ivs, hasBps j = true) :
    parse_iperf_output (some (Json.obj kvs)) =
      .ok ((List.range ivs.length).map (fun i => i + 1),
           ivs.map (fun j => bpsValue j / 1000000000), false) := by
  rw [parse_good kvs ivs hint hgood, emittedIndices_all ivs 0 hall, emittedValues_all ivs hall]
  have hfun : (fun i => 0 + i + 1) = fun (i : Nat) => i + 1 := by
    funext i
    omega
  rw [hfun]

/-- Witness for C7 at a concrete two-record document, both records carrying
the throughput field. -/
theorem c7_dense_when_all_carry_witness :
    parse_iperf_output (some (Json.obj [("intervals", Json.arr
        [Json.obj [("sum", Json.obj [("bits_per_second", Json.num 1000000000)])],
         Json.obj [("sum", Json.obj [("bits_per_second", Json.num 2500000000)])]])])) =
      .ok ((List.range ([Json.obj [("sum", Json.obj [("bits_per_second", Json.num 1000000000)])],
            Json.obj [("sum", Json.obj [("bits_per_second", Json.num 2500000000)])]].length)).map
              (fun i => i + 1),
           [Json.obj [("sum", Json.obj [("bits_per_second", Json.num 1000000000)])],
            Json.obj [("sum", Json.obj [("bits_per_second", Json.num 2500000000)])]].map
              (fun j => bpsValue j / 1000000000), false) := by
  refine c7_dense_when_all_carry _ _ rfl ?_ ?_
  · intro j hj
    rcases List.mem_cons.mp hj with rfl | hj
    · exact ⟨_, rfl, Or.inr ⟨_, rfl, Or.inr ⟨1000000000, rfl⟩⟩⟩
    rcases List.mem_cons.mp hj with rfl | hj
    · exact ⟨_, rfl, Or.inr ⟨_, rfl, Or.inr ⟨2500000000, rfl⟩⟩⟩
    · cases hj
  · intro j hj
    rcases List.mem_cons.mp hj with rfl | hj
    · rfl
    rcases List.mem_cons.mp hj with rfl | hj
    · rfl
    · cases hj

/-- C10: on every non-raising return path of parse — decode failure and
successful decode alike, with any mix of records carrying or lacking the
throughput field — the two returned sequences have equal length. -/
theorem c10_parse_lengths_equal (input : Option Json) (ts : List Nat) (bs : List ℚ)
    (diag : Bool) (h : parse_iperf_output input = .ok (ts, bs, diag)) :
    ts.length = bs.length := by
  cases input with
  | none =>
    simp only [parse_iperf_output, Except.ok.injEq, Prod.mk.injEq] at h
    obtain ⟨h1, h2, _⟩ := h
    subst h1; subst h2; rfl
  | some data =>
    rw [parse_iperf_output] at h
    split at h
    · simp at h
    · split at h
      · simp at h
      · split at h
        · simp at h
        · rename_i ts0 bs0 hloop
          simp only [Except.ok.injEq, Prod.mk.injEq] at h
          obtain ⟨h1, h2, _⟩ := h
          subst h1; subst h2
          exact parseLoop_length _ 0 [] [] _ _ hloop rfl

/-- Witness for C10 on the decode-success path: a document with a single
record lacking the throughput field parses to two empty sequences. -/
theorem c10_parse_lengths_equal_witness :
    ([] : List Nat).length = ([] : List ℚ).length :=
  c10_parse_lengths_equal
    (some (Json.obj [("intervals", Json.arr [Json.obj [("sum", Json.obj [])]])]))
    [] [] false rfl

/-- Python min over a list: ValueError on an empty sequence. -/
def pyMin : List ℚ → Except PyErr ℚ
  | [] => .error .valueError
  | x :: rest => .ok (rest.foldl min x)

/-- Python max over a list: ValueError on an empty sequence. -/
def pyMax : List ℚ → Except PyErr ℚ
  | [] => .error .valueError
  | x :: rest => .ok (rest.foldl max x)

/-- np.mean of a sequence: sum divided by length (rational model). -/
def npMean (xs : List ℚ) : ℚ := xs.sum / xs.length

/-- The numeric quantities plot_bandwidth computes before rendering: the
per-series statistics and the shared y-axis range, with the source's
variable names (min_bandwidth and max_bandwidth hold the adjusted bounds). -/
structure PlotStats where
  min_bandwidth1 : ℚ
  max_bandwidth1 : ℚ
  avg_bandwidth1 : ℚ
  min_bandwidth2 : ℚ
  max_bandwidth2 : ℚ
  avg_bandwidth2 : ℚ
  min_bandwidth : ℚ
  max_bandwidth : ℚ

/-- The computation part of plot_bandwidth, in source order: min, max and
mean of each series, then the combined range, then the log-scale floor
max(min × 0.8, 0.01) and headroom max × 1.2. Rendering itself is a side
effect with no further numeric content. -/
def plot_bandwidth (bandwidths1 bandwidths2 : List ℚ) : Except PyErr PlotStats :=
  match pyMin bandwidths1 with
  | .error e => .error e
  | .ok min_bandwidth1 =>
    match pyMax bandwidths1 with
    | .error e => .error e
    | .ok max_bandwidth1 =>
      let avg_bandwidth1 := npMean bandwidths1
      match pyMin bandwidths2 with
      | .error e => .error e
      | .ok min_bandwidth2 =>
        match pyMax bandwidths2 with
        | .error e => .error e
        | .ok max_bandwidth2 =>
          let avg_bandwidth2 := npMean bandwidths2
          let minBoth := min min_bandwidth1 min_bandwidth2
          let maxBoth := max max_bandwidth1 max_bandwidth2
          .ok {
            min_bandwidth1 := min_bandwidth1
            max_bandwidth1 := max_bandwidth1
            avg_bandwidth1 := avg_bandwidth1
            min_bandwidth2 := min_bandwidth2
            max_bandwidth2 := max_bandwidth2
            avg_bandwidth2 := avg_bandwidth2
            min_bandwidth := max (minBoth * (4 / 5)) (1 / 100)
            max_bandwidth := maxBoth * (6 / 5) }

/-- A min-fold is bounded by its initial value. -/
theorem foldl_min_le_init (xs : List ℚ) : ∀ a : ℚ, xs.foldl min a ≤ a := by
  induction xs with
  | nil => intro a; exact le_refl a
  | cons b bs ih =>
    intro a
    exact le_trans (ih (min a b)) (min_le_left a b)

/-- A min-fold is a lower bound of the list. -/
theorem foldl_min_le (xs : List ℚ) : ∀ (a x : ℚ), x ∈ xs → xs.foldl min a ≤ x := by
  induction xs with
  | nil => intro a x hx; cases hx
  | cons b bs ih =>
    intro a x hx
    rcases List.mem_cons.mp hx with rfl | hx
    · exact le_trans (foldl_min_le_init bs (min a x)) (min_le_right a x)
    · exact ih (min a b) x hx

/-- A min-fold returns its initial value or a list element. -/
theorem foldl_min_mem (xs : List ℚ) :
    ∀ a : ℚ, xs.foldl min a = a ∨ xs.foldl min a ∈ xs := by
  induction xs with
  | nil => intro a; exact Or.inl rfl
  | cons b bs ih =>
    intro a
    rcases ih (min a b) with h | h
    · rcases min_choice a b with hm | hm
      · exact Or.inl (by rw [List.foldl_cons, h, hm])
      · exact Or.inr (by rw [List.foldl_cons, h, hm]; exact List.mem_cons_self b bs)
    · exact Or.inr (List.mem_cons_of_mem b h)

/-- A max-fold is bounded below by its initial value. -/
theorem le_foldl_max_init (xs : List ℚ) : ∀ a : ℚ, a ≤ xs.foldl max a := by
  induction xs with
  | nil => intro a; exact le_refl a
  | cons b bs ih =>
    intro a
    exact le_trans (le_max_left a b) (ih (max a b))

/-- A max-fold is an upper bound of the list. -/
theorem le_foldl_max (xs : List ℚ) : ∀ (a x : ℚ), x ∈ xs → x ≤ xs.foldl max a := by
  induction xs with
  | nil => intro a x hx; cases hx
  | cons b bs ih =>
    intro a x hx
    rcases List.mem_cons.mp hx with rfl | hx
    · exact le_trans (le_max_right a x) (le_foldl_max_init bs (max a x))
    · exact ih (max a b) x hx

/-- A max-fold returns its initial value or a list element. -/
theorem foldl_max_mem (xs : List ℚ) :
    ∀ a : ℚ, xs.foldl max a = a ∨ xs.foldl max a ∈ xs := by
  induction xs with
  | nil => intro a; exact Or.inl rfl
  | cons b bs ih =>
    intro a
    rcases ih (max a b) with h | h
    · rcases max_choice a b with hm | hm
      · exact Or.inl (by rw [List.foldl_cons, h, hm])
      · exact Or.inr (by rw [List.foldl_cons, h, hm]; exact List.mem_cons_self b bs)
    · exact Or.inr (List.mem_cons_of_mem b h)

/-- plot_bandwidth succeeds on non-empty inputs, returning the record of the
values it computes. -/
theorem plot_bandwidth_ok (x : ℚ) (xs : List ℚ) (y : ℚ) (ys : List ℚ) :
    plot_bandwidth (x :: xs) (y :: ys) = .ok {
      min_bandwidth1 := xs.foldl min x
      max_bandwidth1 := xs.foldl max x
      avg_bandwidth1 := npMean (x :: xs)
      min_bandwidth2 := ys.foldl min y
      max_bandwidth2 := ys.foldl max y
      avg_bandwidth2 := npMean (y :: ys)
      min_bandwidth := max ((min (xs.foldl min x) (ys.foldl min y)) * (4 / 5)) (1 / 100)
      max_bandwidth := (max (xs.foldl max x) (ys.foldl max y)) * (6 / 5) } := rfl

/-- C6: for every pair of non-empty value sequences the shared y-axis range
has lower bound max(0.8 × min(minA, minB), 0.01) and upper bound
1.2 × max(maxA, maxB), and the lower bound is strictly positive even when
the minimum observed value is 0. -/
theorem c6_y_axis_range (b1 b2 : List ℚ) (h1 : b1 ≠ []) (h2 : b2 ≠ []) :
    ∃ s, plot_bandwidth b1 b2 = .ok s ∧
      s.min_bandwidth = max ((4 / 5) * min s.min_bandwidth1 s.min_bandwidth2) (1 / 100) ∧
      s.max_bandwidth = (6 / 5) * max s.max_bandwidth1 s.max_bandwidth2 ∧
      0 < s.min_bandwidth := by
  match b1, h1, b2, h2 with
  | x :: xs, _, y :: ys, _ =>
    refine ⟨_, plot_bandwidth_ok x xs y ys, ?_, ?_, ?_⟩
    · exact congrArg (fun t => max t ((1 : ℚ) / 100)) (mul_comm _ _)
    · exact mul_comm _ _
    · exact lt_max_of_lt_right (by norm_num)

/-- Witness for C6 at series [0] and [1]: the minimum observed value is 0
and the computed lower bound is still positive. -/
theorem c6_y_axis_range_witness :
    ∃ s, plot_bandwidth [(0 : ℚ)] [(1 : ℚ)] = .ok s ∧
      s.min_bandwidth = max ((4 / 5) * min s.min_bandwidth1 s.min_bandwidth2) (1 / 100) ∧
      s.max_bandwidth = (6 / 5) * max s.max_bandwidth1 s.max_bandwidth2 ∧
      0 < s.min_bandwidth :=
  c6_y_axis_range [0] [1] (by simp) (by simp)

/-- C8: for every pair of non-empty value sequences the per-series
statistics the visualizer computes are the minimum, the maximum and the
arithmetic mean of each sequence (exact in the rational model). -/
theorem c8_series_stats (b1 b2 : List ℚ) (h1 : b1 ≠ []) (h2 : b2 ≠ []) :
    ∃ s, plot_bandwidth b1 b2 = .ok s ∧
      s.min_bandwidth1 ∈ b1 ∧ (∀ v ∈ b1, s.min_bandwidth1 ≤ v) ∧
      s.max_bandwidth1 ∈ b1 ∧ (∀ v ∈ b1, v ≤ s.max_bandwidth1) ∧
      s.avg_bandwidth1 * b1.length = b1.sum ∧
      s.min_bandwidth2 ∈ b2 ∧ (∀ v ∈ b2, s.min_bandwidth2 ≤ v) ∧
      s.max_bandwidth2 ∈ b2 ∧ (∀ v ∈ b2, v ≤ s.max_bandwidth2) ∧
      s.avg_bandwidth2 * b2.length = b2.sum := by
  match b1, h1, b2, h2 with
  | x :: xs, _, y :: ys, _ =>
    refine ⟨_, plot_bandwidth_ok x xs y ys, ?_, ?_, ?_, ?_, ?_, ?_, ?_, ?_, ?_, ?_⟩
    · rcases foldl_min_mem xs x with h | h
      · rw [h]; exact List.mem_cons_self x xs
      · exact List.mem_cons_of_mem x h
    · intro v hv
      rcases List.mem_cons.mp hv with rfl | hv
      · exact foldl_min_le_init xs v
      · exact foldl_min_le xs x v hv
    · rcases foldl_max_mem xs x with h | h
      · rw [h]; exact List.mem_cons_self x xs
      · exact List.mem_cons_of_mem x h
    · intro v hv
      rcases List.mem_cons.mp hv with rfl | hv
      · exact le_foldl_max_init xs v
      · exact le_foldl_max xs x v hv
    · have hlen : ((x :: xs).length : ℚ) ≠ 0 := by
        rw [List.length_cons]
        exact_mod_cast Nat.succ_ne_zero xs.length
      exact div_mul_cancel₀ _ hlen
    · rcases foldl_min_mem ys y with h | h
      · rw [h]; exact List.mem_cons_self y ys
      · exact List.mem_cons_of_mem y h
    · intro v hv
      rcases List.mem_cons.mp hv with rfl | hv
      · exact foldl_min_le_init ys v
      · exact foldl_min_le ys y v hv
    · rcases foldl_max_mem ys y with h | h
      · rw [h]; exact List.mem_cons_self y ys
      · exact List.mem_cons_of_mem y h
    · intro v hv
      rcases List.mem_cons.mp hv with rfl | hv
      · exact le_foldl_max_init ys v
      · exact le_foldl_max ys y v hv
    · have hlen : ((y :: ys).length : ℚ) ≠ 0 := by
        rw [List.length_cons]
        exact_mod_cast Nat.succ_ne_zero ys.length
      exact div_mul_cancel₀ _ hlen

/-- Witness for C8 at two concrete synthetic series of length 10. -/
theorem c8_series_stats_witness :
    ∃ s, plot_bandwidth
        [(3 : ℚ), 1, 4, 1, 5, 9, 2, 6, 5, 3] [(2 : ℚ), 7, 1, 8, 2, 8, 1, 8, 2, 8]
        = .ok s ∧
      s.min_bandwidth1 ∈ [(3 : ℚ), 1, 4, 1, 5, 9, 2, 6, 5, 3] ∧
      (∀ v ∈ [(3 : ℚ), 1, 4, 1, 5, 9, 2, 6, 5, 3], s.min_bandwidth1 ≤ v) ∧
      s.max_bandwidth1 ∈ [(3 : ℚ), 1, 4, 1, 5, 9, 2, 6, 5, 3] ∧
      (∀ v ∈ [(3 : ℚ), 1, 4, 1, 5, 9, 2, 6, 5, 3], v ≤ s.max_bandwidth1) ∧
      s.avg_bandwidth1 * ([(3 : ℚ), 1, 4, 1, 5, 9, 2, 6, 5, 3].length) =
        [(3 : ℚ), 1, 4, 1, 5, 9, 2, 6, 5, 3].sum ∧
      s.min_bandwidth2 ∈ [(2 : ℚ), 7, 1, 8, 2, 8, 1, 8, 2, 8] ∧
      (∀ v ∈ [(2 : ℚ), 7, 1, 8, 2, 8, 1, 8, 2, 8], s.min_bandwidth2 ≤ v) ∧
      s.max_bandwidth2 ∈ [(2 : ℚ), 7, 1, 8, 2, 8, 1, 8, 2, 8] ∧
      (∀ v ∈ [(2 : ℚ), 7, 1, 8, 2, 8, 1, 8, 2, 8], v ≤ s.max_bandwidth2) ∧
      s.avg_bandwidth2 * ([(2 : ℚ), 7, 1, 8, 2, 8, 1, 8, 2, 8].length) =
        [(2 : ℚ), 7, 1, 8, 2, 8, 1, 8, 2, 8].sum :=
  c8_series_stats _ _ (by simp) (by simp)

/-- Observable events of a run of main. Interpolated values are elided from
the print payloads; crash records an uncaught Python exception ending the
run. -/
inductive Event where
  | print (msg : String)
  | popenServer (ns : String)
  | sleep (secs : Nat)
  | popenClient (serverIp : String) (duration : Nat) (ns : String)
  | progressTick (label : String)
  | parseCall (session : Nat)
  | terminate (session : Nat)
  | plotCall
  | crash (e : PyErr)
  deriving DecidableEq, Repr

/-- Assignment of a local variable, shadowing any earlier binding. -/
def assign (env : List (String × String)) (x v : String) : List (String × String) :=
  (x, v) :: env

/-- Resolution of a variable reference: NameError when unbound. -/
def lookupVar (env : List (String × String)) (x : String) : Except PyErr String :=
  match env.lookup x with
  | some v => .ok v
  | none => .error .nameError

/-- The local environment after the assignments in main, in source order:
server_macsec and server_plain are assigned blank placeholders, then the
two client namespaces, then server_macsec and server_plain are assigned
blank placeholders again (the server-namespace block reuses their names).
duration comes from input and is modelled as a separate parameter. -/
def mainEnv : List (String × String) :=
  assign (assign (assign (assign (assign (assign []
    "server_macsec" "") "server_plain" "") "namespace_macsec" "") "namespace_plain" "")
    "server_macsec" "") "server_plain" ""

/-- The tqdm progress loop of a client run: one tick (with a one-second
sleep) per second of the configured duration. -/
def progressLoop (label : String) (duration : Nat) : List Event :=
  List.replicate duration (Event.progressTick label)

/-- The final branch of main: plot when all four parsed lists are truthy
(non-empty), otherwise print the no-data message. -/
def finalStep (timestamps1 : List Nat) (bandwidths1 : List ℚ)
    (timestamps2 : List Nat) (bandwidths2 : List ℚ) : Event :=
  if timestamps1 ≠ [] ∧ bandwidths1 ≠ [] ∧ timestamps2 ≠ [] ∧ bandwidths2 ≠ []
  then Event.plotCall
  else Event.print "No data received. Check if the iperf server is running properly."

/-- The entry routine main as a trace of events. duration is the value read
from input; out1 and out2 stand for the decoded JSON documents of the two
client processes (none for undecodable output). Every variable reference is
resolved with lookupVar against the environment built by the assignments in
main; in the source the two server starts reference the names server1 and
server2, and the second client run references server_macsec as its target
address. -/
def mainRun (duration : Nat) (out1 out2 : Option Json) : List Event :=
  let env := mainEnv
  Event.print "Starting iperf server in namespace ..." ::
  match lookupVar env "server1" with
  | .error e => [Event.crash e]
  | .ok srvNs1 =>
    Event.popenServer srvNs1 :: Event.sleep 1 ::
    Event.print "Running first iperf test in namespace ..." ::
    match lookupVar env "server_macsec", lookupVar env "namespace_macsec" with
    | .error e, _ => [Event.crash e]
    | _, .error e => [Event.crash e]
    | .ok ip1, .ok ns1 =>
      Event.popenClient ip1 duration ns1 ::
      progressLoop "MACsec Progress" duration ++
      Event.parseCall 1 ::
      match parse_iperf_output out1 with
      | .error e => [Event.crash e]
      | .ok (timestamps1, bandwidths1, _) =>
        Event.terminate 1 ::
        Event.print "Starting iperf server in namespace ..." ::
        match lookupVar env "server2" with
        | .error e => [Event.crash e]
        | .ok srvNs2 =>
          Event.popenServer srvNs2 :: Event.sleep 1 ::
          Event.print "Running second iperf test in namespace ..." ::
          match lookupVar env "server_macsec", lookupVar env "namespace_plain" with
          | .error e, _ => [Event.crash e]
          | _, .error e => [Event.crash e]
          | .ok ip2, .ok ns2 =>
            Event.popenClient ip2 duration ns2 ::
            progressLoop "Plain Progress" duration ++
            Event.parseCall 2 ::
            match parse_iperf_output out2 with
            | .error e => [Event.crash e]
            | .ok (timestamps2, bandwidths2, _) =>
              Event.terminate 2 ::
              [finalStep timestamps1 bandwidths1 timestamps2 bandwidths2]

/-- Every run of main crashes as soon as it evaluates the unbound variable
server1 at the first server start: the trace is the initial print followed
by a NameError, whatever the duration and whatever the processes output. -/
theorem mainRun_eq (duration : Nat) (out1 out2 : Option Json) :
    mainRun duration out1 out2 =
      [Event.print "Starting iperf server in namespace ...", Event.crash .nameError] := rfl

/-- C3 states the intended invariant — one termination signal per session's
server regardless of parse outcome — but the code falsifies it: every run
of main raises NameError at the first server start (the unbound variable
server1), so neither session's server is ever started or signaled to
terminate. The trace contains zero terminate events and ends in a crash. -/
theorem c3_no_termination_ever_happens (duration : Nat) (out1 out2 : Option Json) :
    (mainRun duration out1 out2).count (Event.terminate 1) = 0 ∧
    (mainRun duration out1 out2).count (Event.terminate 2) = 0 ∧
    (∀ ns, Event.popenServer ns ∉ mainRun duration out1 out2) ∧
    Event.crash .nameError ∈ mainRun duration out1 out2 := by
  rw [mainRun_eq]
  refine ⟨by decide, by decide, ?_, by decide⟩
  intro ns
  simp

/-- C4: the post-session decision of main — the visualization call occurs
if and only if both sessions produced non-empty sample sequences, and
otherwise the no-data diagnostic is printed in its place. -/
theorem c4_plot_iff_both_nonempty (timestamps1 : List Nat) (bandwidths1 : List ℚ)
    (timestamps2 : List Nat) (bandwidths2 : List ℚ) :
    (finalStep timestamps1 bandwidths1 timestamps2 bandwidths2 = Event.plotCall ↔
      (timestamps1 ≠ [] ∧ bandwidths1 ≠ [] ∧ timestamps2 ≠ [] ∧ bandwidths2 ≠ [])) ∧
    (finalStep timestamps1 bandwidths1 timestamps2 bandwidths2 = Event.plotCall ∨
      finalStep timestamps1 bandwidths1 timestamps2 bandwidths2 =
        Event.print "No data received. Check if the iperf server is running properly.") := by
  unfold finalStep
  by_cases h : timestamps1 ≠ [] ∧ bandwidths1 ≠ [] ∧ timestamps2 ≠ [] ∧ bandwidths2 ≠ []
  · rw [if_pos h]
    exact ⟨⟨fun _ => h, fun _ => rfl⟩, Or.inl rfl⟩
  · rw [if_neg h]
    exact ⟨⟨fun hc => Event.noConfusion hc, fun hh => absurd hh h⟩, Or.inr rfl⟩

/-- C5 states the intended identifier consistency, which the code
falsifies: the identifier referenced at the first server start, server1, is
bound by no assignment in main (and neither is server2), so every run
resolves it to a NameError and the trace stops at the initial print.
The second client call moreover references server_macsec, the encrypted
target address, instead of server_plain. -/
theorem c5_server_identifiers_unbound (duration : Nat) (out1 out2 : Option Json) :
    lookupVar mainEnv "server1" = .error .nameError ∧
    lookupVar mainEnv "server2" = .error .nameError ∧
    mainRun duration out1 out2 =
      [Event.print "Starting iperf server in namespace ...", Event.crash .nameError] :=
  ⟨rfl, rfl, mainRun_eq duration out1 out2⟩

/-- C9 states the intended sequential orchestration — the encrypted session
runs fully to Done before any plain-session step — but the code falsifies
its first half: every run crashes with NameError before the encrypted
session's server even starts, so the encrypted session never completes
(no client run, no parse, no termination) and the plain session never
begins. -/
theorem c9_encrypted_session_never_completes (duration : Nat) (out1 out2 : Option Json) :
    Event.terminate 1 ∉ mainRun duration out1 out2 ∧
    Event.parseCall 1 ∉ mainRun duration out1 out2 ∧
    (∀ ip d ns, Event.popenClient ip d ns ∉ mainRun duration out1 out2) ∧
    Event.crash .nameError ∈ mainRun duration out1 out2 := by
  rw [mainRun_eq]
  refine ⟨by decide, by decide, ?_, by decide⟩
  intro ip d ns
  simp

end BenchmarkPlot
